import Mathlib

/-!
# Verification of the volunteer-finder incremental matching-and-scoring engine

A shallow embedding, in Lean 4, of the core of the `volunteer-finder`
repository: the Document Store (`storage_manager.py`), the Scoring
Orchestrator (`incremental_scorer.py`), the Ingestion Monitor
(`file_monitor.py`), the Text Normalizer (`text_processor.py`), the Report
Generator (`results_generator.py`) and the grade-repair management command
(`scripts/management/commands/fix_grades.py`).

Conventions of the embedding:
* Python dicts with insertion order become association lists
  (`List (key × value)`): lookup takes the first matching key, an update of
  an existing key keeps its position, a new key is appended at the end.
* `datetime.now()` becomes a logical clock (`DB.clock`), incremented on
  each mutating store write.
* JSON values that the OpenAI oracle can return in a score field become the
  inductive `JVal` (number as an exact rational, string, boolean, null);
  Python `int(...)` coercion becomes `pyInt`.
* The OpenAI call plus `json.loads` boundary becomes an explicit function
  `oracle : String -> String -> Except String JObj` handed to the scorer;
  a `.error` models a JSON decode failure, an `.ok obj` a response that
  parsed as a JSON object.
* Exceptions become `Except ScorerErr`; `ScorerErr.scoring` models
  `ScoringError`, `ScorerErr.storage` models `StorageError`.
* I/O failure of the scores-database write (`save_json` raising
  `StorageError`) becomes a boolean environment flag `save_fails` passed
  to `save_score` and to the scoring operations.
* Scoring operations additionally return the list of `(resume_id, opp_id)`
  pairs for which the oracle was actually invoked, so that claims about
  "no oracle call is made" are statable.
-/

/-- A JSON value as it can appear in a field of the oracle's parsed
response (`json.loads` output restricted to the flat shapes the scoring
prompt requests): an exact rational number, a string, a boolean, or null. -/
inductive JVal where
  | num (q : ℚ)
  | str (s : String)
  | bool (b : Bool)
  | null
deriving DecidableEq, Repr

/-- A parsed JSON object: an insertion-ordered association list of fields. -/
abbrev JObj := List (String × JVal)

/-- A resume record as stored in `resumes_database.json`
(`storage_manager.py`, `register_resume`). -/
structure ResumeRec where
  filename : String
  file_path : String
  text : String
  registered_at : Nat
  email : Option String
  phone : Option String
deriving DecidableEq, Repr

/-- An opportunity record as stored in `opportunities_database.json`
(`storage_manager.py`, `register_opportunity`). -/
structure OppRec where
  filename : String
  file_path : String
  text : String
  position : String
  registered_at : Nat
deriving DecidableEq, Repr

/-- A score record as stored in `scores_database.json`. The four numeric
fields are the `int(...)`-coerced values; `grade`, `recommendation` and
`key_strength` are kept verbatim as the JSON values the oracle supplied
(`_call_openai_scoring` never coerces or rewrites them); `concerns` is kept
if present. `resume_id`, `opp_id` and `filename` are the metadata added by
`score_resume_for_opportunity`; `scored_at` is stamped by `save_score`. -/
structure ScoreRec where
  overall : Int
  skills_match : Int
  experience_match : Int
  education_match : Int
  grade : JVal
  recommendation : JVal
  key_strength : JVal
  concerns : Option JVal
  resume_id : Option Nat
  opp_id : Option Nat
  filename : Option String
  scored_at : Option Nat
deriving DecidableEq, Repr

/-- The persisted store: the four JSON databases managed by
`StorageManager`, as one state.  `resumes` and `opportunities` model the
id-keyed dicts together with their `next_id` counters; `scores` models the
nested dict `scores[resume_id][opp_id]` flattened to pair keys. -/
structure DB where
  resumes : List (Nat × ResumeRec)
  resumes_next_id : Nat
  opportunities : List (Nat × OppRec)
  opportunities_next_id : Nat
  scores : List ((Nat × Nat) × ScoreRec)
  clock : Nat
deriving DecidableEq, Repr

namespace DB

/-- Lookup in an id-keyed association list (first match wins, as in a
Python dict keyed by the stringified id). -/
def assocFind {α : Type} (l : List (Nat × α)) (k : Nat) : Option α :=
  (l.find? (fun p => p.1 == k)).map (fun p => p.2)

/-- `StorageManager.initialize_databases`: creates the empty databases only
when no persisted state exists; an existing persisted store is left
untouched.  `none` models "the JSON files do not exist yet". -/
def init_databases (persisted : Option DB) : DB :=
  match persisted with
  | some db => db
  | none =>
    { resumes := []
      resumes_next_id := 1
      opportunities := []
      opportunities_next_id := 1
      scores := []
      clock := 0 }

/-- `StorageManager.register_resume`: scan the resumes dict for an entry
with the same filename; if found return its id and write nothing, else
insert a fresh record (email and phone are `None`) under `next_id` and
increment the counter. -/
def register_resume (db : DB) (filename file_path text : String) : Nat × DB :=
  match db.resumes.find? (fun p => p.2.filename == filename) with
  | some p => (p.1, db)
  | none =>
    let new_id := db.resumes_next_id
    (new_id,
      { db with
        resumes := db.resumes ++
          [(new_id,
            { filename := filename
              file_path := file_path
              text := text
              registered_at := db.clock
              email := none
              phone := none })]
        resumes_next_id := new_id + 1
        clock := db.clock + 1 })

/-- `StorageManager.register_opportunity`: same dedup-by-filename and
monotonic id assignment as `register_resume`, over the independent
opportunities collection. -/
def register_opportunity (db : DB) (filename file_path text position : String) :
    Nat × DB :=
  match db.opportunities.find? (fun p => p.2.filename == filename) with
  | some p => (p.1, db)
  | none =>
    let new_id := db.opportunities_next_id
    (new_id,
      { db with
        opportunities := db.opportunities ++
          [(new_id,
            { filename := filename
              file_path := file_path
              text := text
              position := position
              registered_at := db.clock })]
        opportunities_next_id := new_id + 1
        clock := db.clock + 1 })

/-- `StorageManager.get_resume`. -/
def get_resume (db : DB) (resume_id : Nat) : Option ResumeRec :=
  assocFind db.resumes resume_id

/-- `StorageManager.get_opportunity`. -/
def get_opportunity (db : DB) (opp_id : Nat) : Option OppRec :=
  assocFind db.opportunities opp_id

/-- `StorageManager.get_score`: lookup of `scores[resume_id][opp_id]`. -/
def get_score (db : DB) (resume_id opp_id : Nat) : Option ScoreRec :=
  (db.scores.find? (fun p => p.1 == (resume_id, opp_id))).map (fun p => p.2)

/-- `StorageManager.resume_needs_scoring`. -/
def resume_needs_scoring (db : DB) (resume_id opp_id : Nat) : Bool :=
  (db.get_score resume_id opp_id).isNone

/-- Update-or-append for the flattened scores dict: an existing pair key
keeps its position and gets the new value, a fresh pair key is appended. -/
def putScoreEntry (l : List ((Nat × Nat) × ScoreRec)) (k : Nat × Nat)
    (v : ScoreRec) : List ((Nat × Nat) × ScoreRec) :=
  if l.any (fun p => p.1 == k) then
    l.map (fun p => if p.1 == k then (k, v) else p)
  else
    l ++ [(k, v)]

/-- The filenames currently present in the resumes collection. -/
def resumeFilenames (db : DB) : List String :=
  db.resumes.map (fun p => p.2.filename)

end DB

/-! ## Sequences of registrations (for the identity-assignment claims)

`register_resume_many` folds `register_resume` over a list of
`(filename, file_path, text)` triples; `register_resume_runs` additionally
re-runs `initialize_databases` between chunks, modelling separate process
invocations of the application against the same persisted store. -/

/-- Register a list of `(filename, file_path, text)` triples in order,
returning the assigned ids in order together with the final store. -/
def register_resume_many : DB → List (String × String × String) → List Nat × DB
  | db, [] => ([], db)
  | db, f :: rest =>
    let r := db.register_resume f.1 f.2.1 f.2.2
    let t := register_resume_many r.2 rest
    (r.1 :: t.1, t.2)

/-- Register chunks of triples where each chunk is performed by a fresh
process invocation: every invocation starts with
`StorageManager.initialize_databases` over whatever state is persisted
(`none` = no files yet, i.e. the very first run). -/
def register_resume_runs :
    Option DB → List (List (String × String × String)) → List Nat × DB
  | st, [] => ([], DB.init_databases st)
  | st, chunk :: rest =>
    let db := DB.init_databases st
    let t := register_resume_many db chunk
    let t2 := register_resume_runs (some t.2) rest
    (t.1 ++ t2.1, t2.2)

/-! ## Claim C7/C8 helper functions and lemmas -/

/-- The id the source's dedup scan would return for `filename`: the id of
the first resume entry whose `filename` field equals it. -/
def find_resume_id_by_filename (l : List (Nat × ResumeRec)) (fn : String) :
    Option Nat :=
  (l.find? (fun p => p.2.filename == fn)).map (fun p => p.1)

/-- Dedup scan for the opportunities collection. -/
def find_opportunity_id_by_filename (l : List (Nat × OppRec)) (fn : String) :
    Option Nat :=
  (l.find? (fun p => p.2.filename == fn)).map (fun p => p.1)

/-- Registering a filename not yet present appends a fresh record under
`next_id` and bumps the counter and the clock. -/
theorem register_resume_fresh (db : DB) (fn fp tx : String)
    (h : fn ∉ db.resumeFilenames) :
    db.register_resume fn fp tx =
      (db.resumes_next_id,
       { db with
         resumes := db.resumes ++
           [(db.resumes_next_id,
             { filename := fn, file_path := fp, text := tx,
               registered_at := db.clock, email := none, phone := none })]
         resumes_next_id := db.resumes_next_id + 1
         clock := db.clock + 1 }) := by
  have hnone : db.resumes.find? (fun p => p.2.filename == fn) = none := by
    rw [List.find?_eq_none]
    intro p hp hcontra
    exact h (List.mem_map.mpr ⟨p, hp, by simpa using hcontra⟩)
  unfold DB.register_resume
  rw [hnone]

theorem register_resume_many_spec (l : List (String × String × String)) :
    ∀ db : DB, db.resumes_next_id = db.resumes.length + 1 →
      (l.map (fun f => f.1)).Nodup →
      (∀ f ∈ l, f.1 ∉ db.resumeFilenames) →
      (register_resume_many db l).1 =
        List.range' db.resumes_next_id l.length ∧
      (register_resume_many db l).2.resumes_next_id =
        (register_resume_many db l).2.resumes.length + 1 ∧
      (register_resume_many db l).2.resumeFilenames =
        db.resumeFilenames ++ l.map (fun f => f.1) := by
  induction l with
  | nil => intro db hinv _ _; simp [register_resume_many, hinv]
  | cons f rest ih =>
    intro db hinv hnodup hfresh
    have hf : f.1 ∉ db.resumeFilenames := hfresh f (by simp)
    have hreg := register_resume_fresh db f.1 f.2.1 f.2.2 hf
    have hnodup' : (rest.map (fun f => f.1)).Nodup :=
      (List.nodup_cons.mp (by simpa using hnodup)).2
    have hne : f.1 ∉ rest.map (fun f => f.1) :=
      (List.nodup_cons.mp (by simpa using hnodup)).1
    simp only [register_resume_many, hreg]
    set db1 : DB :=
      { db with
        resumes := db.resumes ++
          [(db.resumes_next_id,
            { filename := f.1, file_path := f.2.1, text := f.2.2,
              registered_at := db.clock, email := none, phone := none })]
        resumes_next_id := db.resumes_next_id + 1
        clock := db.clock + 1 } with hdb1
    have h1 : db1.resumes_next_id = db1.resumes.length + 1 := by
      simp [hdb1, hinv]
    have h2 : db1.resumeFilenames = db.resumeFilenames ++ [f.1] := by
      simp [hdb1, DB.resumeFilenames]
    have hfresh' : ∀ g ∈ rest, g.1 ∉ db1.resumeFilenames := by
      intro g hg
      rw [h2]
      intro hmem
      rcases List.mem_append.mp hmem with hold | hnew
      · exact hfresh g (List.mem_cons_of_mem _ hg) hold
      · have : g.1 = f.1 := by simpa using hnew
        exact hne (this ▸ List.mem_map.mpr ⟨g, hg, rfl⟩)
    obtain ⟨ha, hb, hc⟩ := ih db1 h1 hnodup' hfresh'
    refine ⟨?_, hb, ?_⟩
    · have hnext1 : db1.resumes_next_id = db.resumes_next_id + 1 := by
        simp [hdb1]
      rw [ha, hnext1, List.length_cons, List.range'_succ]
    · rw [hc, h2]
      simp

theorem register_resume_runs_spec
    (runs : List (List (String × String × String))) :
    ∀ db : DB, db.resumes_next_id = db.resumes.length + 1 →
      (runs.flatten.map (fun f => f.1)).Nodup →
      (∀ f ∈ runs.flatten, f.1 ∉ db.resumeFilenames) →
      (register_resume_runs (some db) runs).1 =
        List.range' db.resumes_next_id runs.flatten.length ∧
      (register_resume_runs (some db) runs).2.resumes_next_id =
        (register_resume_runs (some db) runs).2.resumes.length + 1 ∧
      (register_resume_runs (some db) runs).2.resumeFilenames =
        db.resumeFilenames ++ runs.flatten.map (fun f => f.1) := by
  induction runs with
  | nil => intro db hinv _ _; simp [register_resume_runs, DB.init_databases, hinv]
  | cons chunk rest ih =>
    intro db hinv hnodup hfresh
    have hjoin : (chunk :: rest).flatten = chunk ++ rest.flatten := by
      simp [List.flatten]
    rw [hjoin] at hnodup hfresh
    have hnodup1 : (chunk.map (fun f => f.1)).Nodup := by
      have := hnodup
      rw [List.map_append] at this
      exact (List.nodup_append.mp this).1
    have hfresh1 : ∀ f ∈ chunk, f.1 ∉ db.resumeFilenames := fun f hf =>
      hfresh f (List.mem_append.mpr (Or.inl hf))
    obtain ⟨ha, hb, hc⟩ := register_resume_many_spec chunk db hinv hnodup1 hfresh1
    have hnodup2 : (rest.flatten.map (fun f => f.1)).Nodup := by
      have := hnodup
      rw [List.map_append] at this
      exact (List.nodup_append.mp this).2.1
    have hdisj : ∀ g ∈ rest.flatten, g.1 ∉ chunk.map (fun f => f.1) := by
      have := hnodup
      rw [List.map_append] at this
      intro g hg hmem
      exact List.disjoint_of_nodup_append this hmem (List.mem_map.mpr ⟨g, hg, rfl⟩)
    have hfresh2 :
        ∀ f ∈ rest.flatten, f.1 ∉ (register_resume_many db chunk).2.resumeFilenames := by
      intro g hg
      rw [hc]
      intro hmem
      rcases List.mem_append.mp hmem with hold | hnew
      · exact hfresh g (List.mem_append.mpr (Or.inr hg)) hold
      · exact hdisj g hg hnew
    obtain ⟨ha2, hb2, hc2⟩ := ih (register_resume_many db chunk).2 hb hnodup2 hfresh2
    simp only [register_resume_runs, DB.init_databases]
    refine ⟨?_, hb2, ?_⟩
    · rw [ha, ha2, hb]
      have hlen : (register_resume_many db chunk).2.resumes.length + 1 =
          db.resumes_next_id + chunk.length := by
        have := congrArg List.length hc
        simp only [DB.resumeFilenames, List.length_map, List.length_append] at this
        omega
      rw [hlen, hjoin, List.length_append, List.range'_append_1, Nat.add_comm]
    · rw [hc2, hc, hjoin]
      simp

/-- `register_resume_runs` starting from no persisted files behaves like
starting from the freshly initialized store. -/
theorem register_resume_runs_none
    (runs : List (List (String × String × String))) :
    register_resume_runs none runs =
      register_resume_runs (some (DB.init_databases none)) runs := by
  cases runs <;> rfl

/-! ## Concrete stores used by the witnesses -/

/-- A concrete store holding one resume and one opportunity, both with
source filename `a.txt`. -/
def dbReg : DB :=
  { resumes :=
      [(1, { filename := "a.txt", file_path := "a.txt", text := "Alice",
             registered_at := 0, email := none, phone := none })]
    resumes_next_id := 2
    opportunities :=
      [(1, { filename := "a.txt", file_path := "a.txt", text := "Tutor role",
             position := "Tutor", registered_at := 1 })]
    opportunities_next_id := 2
    scores := []
    clock := 2 }

/-- C7: Registration is idempotent by filename: if the dedup scan of the
collection finds an existing record with the given filename (returning its
id), then `register_resume` (resp. `register_opportunity`) called with that
filename returns exactly that id together with a completely unchanged
store — so nothing is written and the collection's contents, size and
next-id counter all stay as they were. -/
theorem claim_C7_registration_idempotent
    (db : DB) (fn fp tx fp2 tx2 pos : String) (i j : Nat)
    (h1 : find_resume_id_by_filename db.resumes fn = some i)
    (h2 : find_opportunity_id_by_filename db.opportunities fn = some j) :
    db.register_resume fn fp tx = (i, db) ∧
    db.register_opportunity fn fp2 tx2 pos = (j, db) := by
  constructor
  · unfold find_resume_id_by_filename at h1
    unfold DB.register_resume
    cases hf : db.resumes.find? (fun p => p.2.filename == fn) with
    | none => rw [hf] at h1; simp at h1
    | some p =>
      rw [hf] at h1
      simp only [Option.map_some', Option.some.injEq] at h1
      simp [h1]
  · unfold find_opportunity_id_by_filename at h2
    unfold DB.register_opportunity
    cases hf : db.opportunities.find? (fun p => p.2.filename == fn) with
    | none => rw [hf] at h2; simp at h2
    | some p =>
      rw [hf] at h2
      simp only [Option.map_some', Option.some.injEq] at h2
      simp [h2]

/-- Witness for C7 at a concrete store: re-registering `a.txt` in either
collection returns id 1 and the untouched store. -/
theorem claim_C7_witness :
    dbReg.register_resume "a.txt" "b" "other text" = (1, dbReg) ∧
    dbReg.register_opportunity "a.txt" "c" "other" "Other role" = (1, dbReg) :=
  claim_C7_registration_idempotent dbReg "a.txt" "b" "other text" "c" "other"
    "Other role" 1 1 (by decide) (by decide)

/-- C8: Monotonic identity assignment.  Starting from no persisted store
(the first process invocation runs `initialize_databases` on missing files)
and performing any sequence of registrations with pairwise distinct
filenames — split arbitrarily into chunks, each chunk run by a separate
process invocation that re-enters through `initialize_databases` on the
persisted state — the assigned ids are exactly `1, 2, ..., N` in
registration order, with no gaps and no reuse. -/
theorem claim_C8_monotonic_identity
    (runs : List (List (String × String × String)))
    (hnodup : (runs.flatten.map (fun f => f.1)).Nodup) :
    (register_resume_runs none runs).1 =
      List.range' 1 runs.flatten.length := by
  rw [register_resume_runs_none]
  have hfresh : ∀ f ∈ runs.flatten,
      f.1 ∉ (DB.init_databases none).resumeFilenames := by
    intro f _ hmem
    simp [DB.init_databases, DB.resumeFilenames] at hmem
  exact (register_resume_runs_spec runs (DB.init_databases none)
    (by simp [DB.init_databases]) hnodup hfresh).1

/-- Witness for C8: three distinct filenames split across two process
invocations get ids `[1, 2, 3]`. -/
theorem claim_C8_witness :
    (register_resume_runs none
      [[("a.txt", "a.txt", "ta")],
       [("b.txt", "b.txt", "tb"), ("c.txt", "c.txt", "tc")]]).1 =
      List.range' 1 3 :=
  claim_C8_monotonic_identity
    [[("a.txt", "a.txt", "ta")], [("b.txt", "b.txt", "tb"), ("c.txt", "c.txt", "tc")]]
    (by decide)

/-! ## The Scoring Orchestrator (`incremental_scorer.py`) -/

/-- Error taxonomy: `scoring` models `ScoringError`, `storage` models
`StorageError`. -/
inductive ScorerErr where
  | scoring (msg : String)
  | storage (msg : String)
deriving DecidableEq, Repr

/-- Whether a result is a raised `ScoringError`. -/
def isScoringError {α : Type} : Except ScorerErr α → Bool
  | .error (.scoring _) => true
  | _ => false

/-- Whether a result is a raised `StorageError`. -/
def isStorageError {α : Type} : Except ScorerErr α → Bool
  | .error (.storage _) => true
  | _ => false

/-- Whether a result is a normal return (no exception escaped). -/
def isOkResult {α : Type} : Except ScorerErr α → Bool
  | .ok _ => true
  | .error _ => false

/-- Python `int(float)` truncates toward zero; on an exact rational this
is truncating division of numerator by denominator. -/
def pyTrunc (q : ℚ) : Int := q.num.tdiv q.den

/-- Digit run to number, most significant first. -/
def digitsToNat (l : List Char) : Nat :=
  l.foldl (fun n c => n * 10 + (c.toNat - '0'.toNat)) 0

/-- Python `int(str)`: optional surrounding whitespace, optional sign, then
a non-empty digit run; anything else (such as `"85.5"`) raises
`ValueError`. -/
def parseIntString (s : String) : Option Int :=
  match s.trim.data with
  | [] => none
  | '-' :: ds =>
    if ds ≠ [] ∧ ds.all Char.isDigit then some (-(digitsToNat ds : Int)) else none
  | '+' :: ds =>
    if ds ≠ [] ∧ ds.all Char.isDigit then some (digitsToNat ds : Int) else none
  | ds =>
    if ds.all Char.isDigit then some (digitsToNat ds : Int) else none

/-- Python `int(...)` applied to a parsed JSON value: numbers truncate
toward zero (so `int(85.5) == 85`, no exception), numeric strings parse,
booleans coerce to 0/1, and null/non-numeric strings raise `ValueError`. -/
def pyInt : JVal → Except String Int
  | .num q => .ok (pyTrunc q)
  | .str s =>
    match parseIntString s with
    | some n => .ok n
    | none => .error "invalid literal for int() with base 10"
  | .bool b => .ok (if b then 1 else 0)
  | .null => .error "int() argument must be a number, not NoneType"

/-- Field lookup in a parsed JSON object (`score_data[field]`). -/
def objLookup (obj : JObj) (k : String) : Option JVal :=
  (obj.find? (fun p => p.1 == k)).map (fun p => p.2)

/-- `score_data.get(field, default)`. -/
def objLookupD (obj : JObj) (k : String) (d : JVal) : JVal :=
  (objLookup obj k).getD d

/-- The `required_fields` loop of `_call_openai_scoring`: the first
required field missing from the response, if any. -/
def first_missing_required (obj : JObj) : Option String :=
  ["overall", "skills_match", "experience_match",
   "grade", "recommendation", "key_strength"].find?
    (fun f => (objLookup obj f).isNone)

/-- The validation tail of `IncrementalScorer._call_openai_scoring` after
`json.loads` succeeded: check the required fields, coerce the four numeric
fields with `int(...)` (`education_match` defaulting to 50), and keep
`grade`, `recommendation`, `key_strength` and `concerns` verbatim as the
oracle supplied them.  Any `ValueError` from a missing field or a failed
coercion becomes an `.error`. -/
def validate_score_data (obj : JObj) : Except String ScoreRec :=
  match first_missing_required obj with
  | some f => .error ("Missing required field: " ++ f)
  | none =>
    match objLookup obj "overall", objLookup obj "skills_match",
          objLookup obj "experience_match", objLookup obj "grade",
          objLookup obj "recommendation", objLookup obj "key_strength" with
    | some vOv, some vSk, some vEx, some vGr, some vRe, some vKs =>
      match pyInt vOv, pyInt vSk, pyInt vEx,
            pyInt (objLookupD obj "education_match" (JVal.num 50)) with
      | .ok ov, .ok sk, .ok ex, .ok ed =>
        .ok { overall := ov, skills_match := sk, experience_match := ex,
              education_match := ed, grade := vGr, recommendation := vRe,
              key_strength := vKs, concerns := objLookup obj "concerns",
              resume_id := none, opp_id := none, filename := none,
              scored_at := none }
      | .error e, _, _, _ => .error e
      | _, .error e, _, _ => .error e
      | _, _, .error e, _ => .error e
      | _, _, _, .error e => .error e
    | _, _, _, _, _, _ => .error "Missing required field"

/-- `IncrementalScorer._call_openai_scoring`: the oracle boundary (OpenAI
call, markdown stripping and `json.loads`) is the supplied `oracle`
function; a decode failure and any validation failure both surface as
`ScoringError`, exactly as the two `except` clauses do. -/
def call_openai_scoring (oracle : String → String → Except String JObj)
    (resume_text job_description : String) : Except ScorerErr ScoreRec :=
  match oracle resume_text job_description with
  | .error e => .error (.scoring ("Failed to parse OpenAI response as JSON: " ++ e))
  | .ok obj =>
    match validate_score_data obj with
    | .ok sd => .ok sd
    | .error e => .error (.scoring ("OpenAI API call failed: " ++ e))

/-- `StorageManager.save_score`: upsert the pair's record, stamping
`scored_at`; if the underlying `save_json` fails (modelled by the
`save_fails` flag) a `StorageError` is raised. -/
def save_score (save_fails : Bool) (db : DB) (resume_id opp_id : Nat)
    (sd : ScoreRec) : Except ScorerErr DB :=
  if save_fails then
    .error (.storage "Failed to save scores_database.json")
  else
    .ok { db with
          scores := DB.putScoreEntry db.scores (resume_id, opp_id)
            { sd with scored_at := some db.clock }
          clock := db.clock + 1 }

/-- `IncrementalScorer.score_resume_for_opportunity`.  Returns the list of
pairs for which the oracle was invoked together with the Python result:
either a normal return of (score data, updated store) or a raised
exception.  Faithful control flow: the cache check comes first (before any
existence check); the body around the oracle call and `save_score` is a
blanket `except Exception` that re-raises everything — including a
`StorageError` from the save — as `ScoringError`. -/
def score_resume_for_opportunity (oracle : String → String → Except String JObj)
    (save_fails : Bool) (db : DB) (resume_id opp_id : Nat) (force : Bool) :
    List (Nat × Nat) × Except ScorerErr (Option ScoreRec × DB) :=
  if force = false ∧ db.resume_needs_scoring resume_id opp_id = false then
    ([], .ok (db.get_score resume_id opp_id, db))
  else
    match db.get_resume resume_id, db.get_opportunity opp_id with
    | some resume, some opp =>
      (match call_openai_scoring oracle resume.text opp.text with
       | .error _ =>
         ([(resume_id, opp_id)],
          .error (.scoring "Failed to score Resume x Opportunity"))
       | .ok sd0 =>
         let sd := { sd0 with resume_id := some resume_id,
                              opp_id := some opp_id,
                              filename := some resume.filename }
         match save_score save_fails db resume_id opp_id sd with
         | .error _ =>
           ([(resume_id, opp_id)],
            .error (.scoring "Failed to score Resume x Opportunity"))
         | .ok db2 => ([(resume_id, opp_id)], .ok (some sd, db2)))
    | _, _ =>
      ([], .error (.scoring "Resume or Opportunity not found"))

/-! ## The grade-repair command (`fix_grades.py`) -/

/-- `Command.calculate_grade`: the fixed banding function from `overall`
to a letter grade. -/
def calculate_grade (score : Int) : String :=
  if score ≥ 95 then "A+"
  else if score ≥ 90 then "A"
  else if score ≥ 85 then "B+"
  else if score ≥ 80 then "B"
  else if score ≥ 75 then "C+"
  else if score ≥ 70 then "C"
  else if score ≥ 65 then "D"
  else "F"

/-- A `ResumeScore` row as the repair command sees it. -/
structure ResumeScoreRow where
  overall_score : Int
  grade : String
deriving DecidableEq, Repr

/-- `Command.fix_single_grade` (non-dry-run): recompute the grade from
`overall_score` and overwrite it when inconsistent. -/
def fix_single_grade (row : ResumeScoreRow) : ResumeScoreRow :=
  let correct_grade := calculate_grade row.overall_score
  if row.grade == correct_grade then row
  else { row with grade := correct_grade }

/-! ## Concrete fixtures for the scoring claims -/

/-- A store with one resume and one opportunity and no scores yet. -/
def db1 : DB :=
  { resumes :=
      [(1, { filename := "alice.txt", file_path := "alice.txt",
             text := "alice resume", registered_at := 0,
             email := none, phone := none })]
    resumes_next_id := 2
    opportunities :=
      [(1, { filename := "tutor.txt", file_path := "tutor.txt",
             text := "tutor role", position := "Tutor",
             registered_at := 1 })]
    opportunities_next_id := 2
    scores := []
    clock := 2 }

/-- A well-formed oracle response whose `overall` is 88 but whose
`grade` field says `"F"` — inconsistent with the banding function. -/
def obj88 : JObj :=
  [("overall", JVal.num 88), ("skills_match", JVal.num 80),
   ("experience_match", JVal.num 80), ("education_match", JVal.num 70),
   ("grade", JVal.str "F"), ("recommendation", JVal.str "Not Recommended"),
   ("key_strength", JVal.str "Strong writing"), ("concerns", JVal.str "None")]

/-- Oracle that always answers with `obj88`. -/
def oracle88 : String → String → Except String JObj := fun _ _ => .ok obj88

/-- A response that parsed as JSON but carries the non-integer number 85.5
in the `overall` field. -/
def obj455 : JObj :=
  [("overall", JVal.num (mkRat 171 2)), ("skills_match", JVal.num 80),
   ("experience_match", JVal.num 80), ("education_match", JVal.num 70),
   ("grade", JVal.str "B+"), ("recommendation", JVal.str "Recommended"),
   ("key_strength", JVal.str "Solid"), ("concerns", JVal.str "None")]

/-- Oracle that always answers with `obj455`. -/
def oracle455 : String → String → Except String JObj := fun _ _ => .ok obj455

/-- Oracle that always fails to produce parseable JSON (used where the
oracle must not matter). -/
def oracleNever : String → String → Except String JObj := fun _ _ => .error "no json"

/-- A stale score record for pair (1, 1). -/
def staleRec : ScoreRec :=
  { overall := 60, skills_match := 55, experience_match := 60,
    education_match := 65, grade := JVal.str "F",
    recommendation := JVal.str "Not Recommended",
    key_strength := JVal.str "none", concerns := some (JVal.str "weak"),
    resume_id := some 1, opp_id := some 1, filename := some "ghost.txt",
    scored_at := some 0 }

/-- A store whose scores collection has a record for pair (1, 1) although
neither resume 1 nor opportunity 1 exists. -/
def dbStale : DB :=
  { resumes := []
    resumes_next_id := 1
    opportunities := []
    opportunities_next_id := 1
    scores := [((1, 1), staleRec)]
    clock := 1 }

/-- Fallback record for result extraction in concrete statements. -/
def dummyScore : ScoreRec :=
  { overall := 0, skills_match := 0, experience_match := 0,
    education_match := 0, grade := JVal.null, recommendation := JVal.null,
    key_strength := JVal.null, concerns := none, resume_id := none,
    opp_id := none, filename := none, scored_at := none }

/-- Extract the validated record from a validation result. -/
def recOfValidate (e : Except String ScoreRec) : ScoreRec :=
  match e with
  | .ok r => r
  | .error _ => dummyScore

/-- Extract the store from a scoring result, falling back to a default. -/
def dbOfRun (fallback : DB) (e : Except ScorerErr (Option ScoreRec × DB)) : DB :=
  match e with
  | .ok (_, d) => d
  | .error _ => fallback

/-- The concrete scoring run behind the C1 counterexample. -/
def c1run : List (Nat × Nat) × Except ScorerErr (Option ScoreRec × DB) :=
  score_resume_for_opportunity oracle88 false db1 1 1 false

/-- The store after the C1 run. -/
def c1db : DB := dbOfRun db1 c1run.2

/-- C1 counterexample: a concrete scoring run in which the oracle answers
`overall = 88` with `grade = "F"`.  The run succeeds and the persisted
Score keeps the oracle's grade `"F"`, although the banding function maps
88 to `"B+"` — so a persisted Score with `grade ≠ band(overall)` exists,
refuting "every persisted Score satisfies grade = band(overall)". -/
theorem claim_C1_counterexample :
    isOkResult c1run.2 = true ∧
    (c1db.get_score 1 1).map (fun s => s.overall) = some 88 ∧
    (c1db.get_score 1 1).map (fun s => s.grade) = some (JVal.str "F") ∧
    calculate_grade 88 = "B+" ∧
    (c1db.get_score 1 1).map (fun s => s.grade) ≠
      some (JVal.str (calculate_grade 88)) := by
  refine ⟨rfl, rfl, rfl, rfl, ?_⟩
  intro h
  simp [c1db, c1run, calculate_grade] at h
  revert h
  decide

/-- C1 amended: the scoring pipeline stores `grade` and `recommendation`
verbatim from the oracle's response — they are independent inputs, not
derived from `overall`; only the separate `fix_grades` repair command
enforces `grade = calculate_grade(overall)` (and it repairs `grade`
alone). -/
theorem claim_C1_grade_taken_from_oracle :
    (∀ (obj : JObj) (rec : ScoreRec), validate_score_data obj = .ok rec →
      objLookup obj "grade" = some rec.grade ∧
      objLookup obj "recommendation" = some rec.recommendation) ∧
    (∀ row : ResumeScoreRow,
      (fix_single_grade row).grade = calculate_grade row.overall_score) := by
  constructor
  · intro obj rec h
    unfold validate_score_data at h
    split at h
    · exact absurd h (by simp)
    · split at h
      · split at h
        · rw [Except.ok.injEq] at h
          subst h
          exact ⟨by assumption, by assumption⟩
        all_goals exact absurd h (by simp)
      · exact absurd h (by simp)
  · intro row
    simp only [fix_single_grade]
    split
    · rename_i hbeq
      exact eq_of_beq hbeq
    · rfl

/-- Witness for the C1 amended theorem at the concrete `obj88` response
and a concrete inconsistent row. -/
theorem claim_C1_witness :
    (objLookup obj88 "grade" =
        some (recOfValidate (validate_score_data obj88)).grade ∧
      objLookup obj88 "recommendation" =
        some (recOfValidate (validate_score_data obj88)).recommendation) ∧
    (fix_single_grade { overall_score := 88, grade := "F" }).grade =
      calculate_grade 88 :=
  ⟨claim_C1_grade_taken_from_oracle.1 obj88
      (recOfValidate (validate_score_data obj88)) rfl,
   claim_C1_grade_taken_from_oracle.2 { overall_score := 88, grade := "F" }⟩

/-- The concrete scoring run behind the C4 counterexample. -/
def c4run : List (Nat × Nat) × Except ScorerErr (Option ScoreRec × DB) :=
  score_resume_for_opportunity oracle455 false db1 1 1 false

/-- The store after the C4 run. -/
def c4db : DB := dbOfRun db1 c4run.2

/-- C4 counterexample: a response that parses as JSON but has the
non-integer 85.5 in the `overall` field does NOT fail parsing: the
pipeline truncates it with `int(...)`, returns normally, and a Score with
`overall = 85` is silently persisted — no `ScoringError` is raised. -/
theorem claim_C4_counterexample :
    isOkResult (call_openai_scoring oracle455 "r" "j") = true ∧
    isScoringError c4run.2 = false ∧
    isOkResult c4run.2 = true ∧
    (c4db.get_score 1 1).map (fun s => s.overall) = some 85 := by
  refine ⟨rfl, rfl, rfl, by decide⟩

/-- C4 amended: a non-integer JSON number in an integer score field is not
a parse failure — `int(...)` truncates it toward zero and the validated
record carries the truncated value (and is then stored as usual); only
values `int(...)` itself rejects (non-numeric strings, null) surface as
errors. -/
theorem claim_C4_non_integers_truncate :
    (∀ q : ℚ, pyInt (JVal.num q) = .ok (pyTrunc q)) ∧
    (∀ (obj : JObj) (rec : ScoreRec) (q : ℚ),
      validate_score_data obj = .ok rec →
      objLookup obj "overall" = some (JVal.num q) →
      rec.overall = pyTrunc q) ∧
    (pyInt JVal.null).isOk = false := by
  refine ⟨fun q => rfl, ?_, rfl⟩
  intro obj rec q h hov
  unfold validate_score_data at h
  split at h
  · exact absurd h (by simp)
  · split at h
    · split at h
      · rw [Except.ok.injEq] at h
        subst h
        simp_all [pyInt]
      all_goals exact absurd h (by simp)
    · exact absurd h (by simp)

/-- Witness for the C4 amended theorem at the concrete 85.5 response. -/
theorem claim_C4_witness :
    pyInt (JVal.num (mkRat 171 2)) = .ok (pyTrunc (mkRat 171 2)) ∧
    (recOfValidate (validate_score_data obj455)).overall =
      pyTrunc (mkRat 171 2) :=
  ⟨claim_C4_non_integers_truncate.1 (mkRat 171 2),
   claim_C4_non_integers_truncate.2.1 obj455
     (recOfValidate (validate_score_data obj455)) (mkRat 171 2) rfl rfl⟩

/-- C5 counterexample: in a store where neither resume 1 nor opportunity 1
exists but a stale Score for pair (1, 1) is present, the call with
`force = False` does NOT raise `ScoringError`: the cache check runs before
the existence check and the stale Score is returned (with no oracle
call and no state change). -/
theorem claim_C5_counterexample :
    score_resume_for_opportunity oracleNever false dbStale 1 1 false =
      ([], .ok (some staleRec, dbStale)) ∧
    isScoringError
      (score_resume_for_opportunity oracleNever false dbStale 1 1 false).2 =
      false :=
  ⟨rfl, rfl⟩

/-- C5 amended: when the resume or the opportunity does not exist,
`score_resume_for_opportunity` raises `ScoringError` — except in the one
case `force = False` with an existing cached Score for the pair, where the
cached Score is returned unchanged without any existence check (and
without consulting the oracle). -/
theorem claim_C5_missing_entity
    (oracle : String → String → Except String JObj) (save_fails : Bool)
    (db : DB) (r o : Nat) (force : Bool)
    (hmiss : db.get_resume r = none ∨ db.get_opportunity o = none) :
    (force = true ∨ db.get_score r o = none →
      isScoringError
        (score_resume_for_opportunity oracle save_fails db r o force).2 = true ∧
      (score_resume_for_opportunity oracle save_fails db r o force).1 = []) ∧
    (∀ ex : ScoreRec, force = false → db.get_score r o = some ex →
      score_resume_for_opportunity oracle save_fails db r o force =
        ([], .ok (some ex, db))) := by
  constructor
  · intro hforce
    have hcond : ¬(force = false ∧ db.resume_needs_scoring r o = false) := by
      rcases hforce with hf | hs
      · intro hc; rw [hf] at hc; exact absurd hc.1 (by simp)
      · intro hc
        have : db.resume_needs_scoring r o = true := by
          unfold DB.resume_needs_scoring
          rw [hs]; rfl
        rw [this] at hc
        exact absurd hc.2 (by simp)
    unfold score_resume_for_opportunity
    rw [if_neg hcond]
    rcases hmiss with h | h
    · rw [h]
      cases db.get_opportunity o <;> exact ⟨rfl, rfl⟩
    · rw [h]
      cases db.get_resume r <;> exact ⟨rfl, rfl⟩
  · intro ex hf hs
    have hcond : force = false ∧ db.resume_needs_scoring r o = false := by
      refine ⟨hf, ?_⟩
      unfold DB.resume_needs_scoring
      rw [hs]; rfl
    unfold score_resume_for_opportunity
    rw [if_pos hcond, hs]

/-- Witness for the C5 amended theorem: with `force = True` the same stale
store does raise `ScoringError`, and with `force = False` the stale Score
comes back unchanged. -/
theorem claim_C5_witness :
    (isScoringError
        (score_resume_for_opportunity oracleNever false dbStale 1 1 true).2 =
          true ∧
      (score_resume_for_opportunity oracleNever false dbStale 1 1 true).1 = []) ∧
    score_resume_for_opportunity oracleNever false dbStale 1 1 false =
      ([], .ok (some staleRec, dbStale)) :=
  ⟨(claim_C5_missing_entity oracleNever false dbStale 1 1 true
      (Or.inl rfl)).1 (Or.inl rfl),
   (claim_C5_missing_entity oracleNever false dbStale 1 1 false
      (Or.inl rfl)).2 staleRec rfl rfl⟩

/-! ## Batch scoring operations -/

/-- The threshold rule of `score_all_for_opportunity`: with `force=False`,
a pre-existing Score strictly below the threshold is reused (the pair is
skipped); otherwise the loop falls through to `score_resume_for_opportunity`. -/
def threshold_skip (force : Bool) (threshold : Int) (db : DB) (r o : Nat) :
    Option ScoreRec :=
  if force then none
  else
    match db.get_score r o with
    | some ex => if ex.overall < threshold then some ex else none
    | none => none

/-- Prepend results onto the scores list of a normal batch outcome. -/
def mapOkList (f : List ScoreRec → List ScoreRec) :
    Except ScorerErr (List ScoreRec × DB) →
    Except ScorerErr (List ScoreRec × DB)
  | .ok (l, d) => .ok (f l, d)
  | .error e => .error e

/-- The per-resume loop of `IncrementalScorer.score_all_for_opportunity`
over a snapshot of the resume ids.  Faithful control flow per item:
threshold check first (`force=False` only), then delegation to
`score_resume_for_opportunity`; a raised `ScoringError` is caught
(`continue`), anything else — only a `StorageError` could be — aborts
the whole batch. -/
def score_all_loop (oracle : String → String → Except String JObj)
    (save_fails : Bool) (threshold : Int) (o : Nat) (force : Bool) :
    List Nat → DB → List (Nat × Nat) × Except ScorerErr (List ScoreRec × DB)
  | [], db => ([], .ok ([], db))
  | r :: rest, db =>
    match threshold_skip force threshold db r o with
    | some ex =>
      let t := score_all_loop oracle save_fails threshold o force rest db
      (t.1, mapOkList (fun l => ex :: l) t.2)
    | none =>
      let s := score_resume_for_opportunity oracle save_fails db r o force
      match s.2 with
      | .ok (sd, db2) =>
        let t := score_all_loop oracle save_fails threshold o force rest db2
        (s.1 ++ t.1, mapOkList (fun l => sd.toList ++ l) t.2)
      | .error (.scoring _) =>
        let t := score_all_loop oracle save_fails threshold o force rest db
        (s.1 ++ t.1, t.2)
      | .error (.storage m) => (s.1, .error (.storage m))

/-- `IncrementalScorer.score_all_for_opportunity`: iterate every known
resume (ids snapshotted up front) against one opportunity. -/
def score_all_for_opportunity (oracle : String → String → Except String JObj)
    (save_fails : Bool) (threshold : Int) (db : DB) (o : Nat) (force : Bool) :
    List (Nat × Nat) × Except ScorerErr (List ScoreRec × DB) :=
  score_all_loop oracle save_fails threshold o force
    (db.resumes.map (fun p => p.1)) db

/-- The per-opportunity loop of
`IncrementalScorer.score_resume_for_all_opportunities` (no threshold rule
here: the source delegates straight to `score_resume_for_opportunity`). -/
def score_for_all_opps_loop (oracle : String → String → Except String JObj)
    (save_fails : Bool) (r : Nat) (force : Bool) :
    List Nat → DB → List (Nat × Nat) × Except ScorerErr (List ScoreRec × DB)
  | [], db => ([], .ok ([], db))
  | o :: rest, db =>
    let s := score_resume_for_opportunity oracle save_fails db r o force
    match s.2 with
    | .ok (sd, db2) =>
      let t := score_for_all_opps_loop oracle save_fails r force rest db2
      (s.1 ++ t.1, mapOkList (fun l => sd.toList ++ l) t.2)
    | .error (.scoring _) =>
      let t := score_for_all_opps_loop oracle save_fails r force rest db
      (s.1 ++ t.1, t.2)
    | .error (.storage m) => (s.1, .error (.storage m))

/-- `IncrementalScorer.score_resume_for_all_opportunities`. -/
def score_resume_for_all_opportunities
    (oracle : String → String → Except String JObj) (save_fails : Bool)
    (db : DB) (r : Nat) (force : Bool) :
    List (Nat × Nat) × Except ScorerErr (List ScoreRec × DB) :=
  score_for_all_opps_loop oracle save_fails r force
    (db.opportunities.map (fun p => p.1)) db

/-- Inner resume loop of
`IncrementalScorer.score_all_resumes_all_opportunities`: with
`force=False` ANY existing score for the pair (below or above threshold)
is reused; otherwise delegate and catch `ScoringError` per pair. -/
def score_all_pairs_inner (oracle : String → String → Except String JObj)
    (save_fails : Bool) (o : Nat) (force : Bool) :
    List Nat → DB → List (Nat × Nat) × Except ScorerErr (List ScoreRec × DB)
  | [], db => ([], .ok ([], db))
  | r :: rest, db =>
    match (if force then none else db.get_score r o) with
    | some ex =>
      let t := score_all_pairs_inner oracle save_fails o force rest db
      (t.1, mapOkList (fun l => ex :: l) t.2)
    | none =>
      let s := score_resume_for_opportunity oracle save_fails db r o force
      match s.2 with
      | .ok (sd, db2) =>
        let t := score_all_pairs_inner oracle save_fails o force rest db2
        (s.1 ++ t.1, mapOkList (fun l => sd.toList ++ l) t.2)
      | .error (.scoring _) =>
        let t := score_all_pairs_inner oracle save_fails o force rest db
        (s.1 ++ t.1, t.2)
      | .error (.storage m) => (s.1, .error (.storage m))

/-- Outer opportunity loop of `score_all_resumes_all_opportunities`,
carrying the up-front snapshot of resume ids. -/
def score_all_pairs_outer (oracle : String → String → Except String JObj)
    (save_fails : Bool) (resume_keys : List Nat) (force : Bool) :
    List Nat → DB →
    List (Nat × Nat) × Except ScorerErr (List (Nat × List ScoreRec) × DB)
  | [], db => ([], .ok ([], db))
  | o :: rest, db =>
    let s := score_all_pairs_inner oracle save_fails o force resume_keys db
    match s.2 with
    | .ok (l, db2) =>
      let t := score_all_pairs_outer oracle save_fails resume_keys force rest db2
      (s.1 ++ t.1,
       match t.2 with
       | .ok (m, d) => .ok ((o, l) :: m, d)
       | .error e => .error e)
    | .error e => (s.1, .error e)

/-- `IncrementalScorer.score_all_resumes_all_opportunities`: the full
cross product, resumes and opportunities snapshotted up front. -/
def score_all_resumes_all_opportunities
    (oracle : String → String → Except String JObj) (save_fails : Bool)
    (db : DB) (force : Bool) :
    List (Nat × Nat) × Except ScorerErr (List (Nat × List ScoreRec) × DB) :=
  score_all_pairs_outer oracle save_fails (db.resumes.map (fun p => p.1))
    force (db.opportunities.map (fun p => p.1)) db

/-! ## Error-propagation lemmas -/

/-- The blanket `except Exception` in `score_resume_for_opportunity` means
no `StorageError` can ever escape it: every failure surfaces as
`ScoringError`. -/
theorem score_resume_no_storage
    (oracle : String → String → Except String JObj) (save_fails : Bool)
    (db : DB) (r o : Nat) (force : Bool) :
    isStorageError (score_resume_for_opportunity oracle save_fails db r o force).2 =
      false := by
  unfold score_resume_for_opportunity
  split
  · rfl
  · split
    · split
      · rfl
      · dsimp only
        split <;> rfl
    · rfl

theorem mapOkList_isOk (f : List ScoreRec → List ScoreRec)
    (e : Except ScorerErr (List ScoreRec × DB)) :
    isOkResult (mapOkList f e) = isOkResult e := by
  unfold mapOkList
  split <;> rfl

/-- If a result is neither a normal return nor a `ScoringError` nor a
`StorageError`, there is nothing left: case exhaustion helper. -/
theorem result_cases {α : Type} (e : Except ScorerErr α) :
    isOkResult e = true ∨ isScoringError e = true ∨ isStorageError e = true := by
  rcases e with e | a
  · rcases e with m | m
    · right; left; rfl
    · right; right; rfl
  · left; rfl

theorem score_all_loop_isOk (oracle : String → String → Except String JObj)
    (save_fails : Bool) (threshold : Int) (o : Nat) (force : Bool) :
    ∀ (keys : List Nat) (db : DB),
      isOkResult (score_all_loop oracle save_fails threshold o force keys db).2 =
        true := by
  intro keys
  induction keys with
  | nil => intro db; rfl
  | cons r rest ih =>
    intro db
    simp only [score_all_loop]
    cases hts : threshold_skip force threshold db r o with
    | some ex => simpa [mapOkList_isOk] using ih db
    | none =>
      cases hs : (score_resume_for_opportunity oracle save_fails db r o force).2 with
      | ok v =>
        cases v with
        | mk sd db2 => simpa [mapOkList_isOk] using ih db2
      | error e =>
        cases e with
        | scoring m => simpa using ih db
        | storage m =>
          have := score_resume_no_storage oracle save_fails db r o force
          rw [hs] at this
          exact absurd this (by simp [isStorageError])

theorem score_for_all_opps_loop_isOk
    (oracle : String → String → Except String JObj) (save_fails : Bool)
    (r : Nat) (force : Bool) :
    ∀ (keys : List Nat) (db : DB),
      isOkResult (score_for_all_opps_loop oracle save_fails r force keys db).2 =
        true := by
  intro keys
  induction keys with
  | nil => intro db; rfl
  | cons o rest ih =>
    intro db
    simp only [score_for_all_opps_loop]
    cases hs : (score_resume_for_opportunity oracle save_fails db r o force).2 with
    | ok v =>
      cases v with
      | mk sd db2 => simpa [mapOkList_isOk] using ih db2
    | error e =>
      cases e with
      | scoring m => simpa using ih db
      | storage m =>
        have := score_resume_no_storage oracle save_fails db r o force
        rw [hs] at this
        exact absurd this (by simp [isStorageError])

theorem score_all_pairs_inner_isOk
    (oracle : String → String → Except String JObj) (save_fails : Bool)
    (o : Nat) (force : Bool) :
    ∀ (keys : List Nat) (db : DB),
      isOkResult (score_all_pairs_inner oracle save_fails o force keys db).2 =
        true := by
  intro keys
  induction keys with
  | nil => intro db; rfl
  | cons r rest ih =>
    intro db
    simp only [score_all_pairs_inner]
    cases hts : (if force then none else db.get_score r o) with
    | some ex => simpa [mapOkList_isOk] using ih db
    | none =>
      cases hs : (score_resume_for_opportunity oracle save_fails db r o force).2 with
      | ok v =>
        cases v with
        | mk sd db2 => simpa [mapOkList_isOk] using ih db2
      | error e =>
        cases e with
        | scoring m => simpa using ih db
        | storage m =>
          have := score_resume_no_storage oracle save_fails db r o force
          rw [hs] at this
          exact absurd this (by simp [isStorageError])

theorem score_all_pairs_outer_isOk
    (oracle : String → String → Except String JObj) (save_fails : Bool)
    (resume_keys : List Nat) (force : Bool) :
    ∀ (keys : List Nat) (db : DB),
      isOkResult
        (score_all_pairs_outer oracle save_fails resume_keys force keys db).2 =
        true := by
  intro keys
  induction keys with
  | nil => intro db; rfl
  | cons o rest ih =>
    intro db
    simp only [score_all_pairs_outer]
    cases hs : (score_all_pairs_inner oracle save_fails o force resume_keys db).2 with
    | ok v =>
      cases v with
      | mk l db2 =>
        dsimp only
        have hrest := ih db2
        cases ht : (score_all_pairs_outer oracle save_fails resume_keys force rest db2).2 with
        | ok w => cases w with | mk m d => simp [isOkResult]
        | error e => rw [ht] at hrest; exact absurd hrest (by simp [isOkResult])
    | error e =>
      have := score_all_pairs_inner_isOk oracle save_fails o force resume_keys db
      rw [hs] at this
      exact absurd this (by simp [isOkResult])

/-- C3 counterexample: a concrete batch run in which the store's save of
the new Score raises `StorageError` (`save_fails = true`).  The save
does raise `StorageError`; `score_resume_for_opportunity` re-raises it as
`ScoringError` (blanket `except Exception`); and the batch
`score_all_for_opportunity` catches that like any per-pair `ScoringError`
and returns normally with the pair excluded — the `StorageError` does NOT
propagate to the caller. -/
theorem claim_C3_counterexample :
    isStorageError (save_score true db1 1 1 dummyScore) = true ∧
    isScoringError
      (score_resume_for_opportunity oracle88 true db1 1 1 false).2 = true ∧
    isStorageError
      (score_resume_for_opportunity oracle88 true db1 1 1 false).2 = false ∧
    score_all_for_opportunity oracle88 true 70 db1 1 false =
      ([(1, 1)], .ok ([], db1)) :=
  ⟨rfl, rfl, rfl, rfl⟩

/-- C3 amended: a `StorageError` raised while processing a single pair
(in particular by the store's save of the new Score) never propagates out
of a batch operation: `score_resume_for_opportunity` wraps every failure
of its oracle-call-and-save block — `StorageError` included — into
`ScoringError`, and all three batch operations catch per-pair
`ScoringError`s, so every batch run returns normally. -/
theorem claim_C3_storage_absorbed :
    (∀ (oracle : String → String → Except String JObj) (save_fails : Bool)
       (db : DB) (r o : Nat) (force : Bool),
      isStorageError
        (score_resume_for_opportunity oracle save_fails db r o force).2 = false) ∧
    (∀ (oracle : String → String → Except String JObj) (save_fails : Bool)
       (threshold : Int) (db : DB) (o : Nat) (force : Bool),
      isOkResult
        (score_all_for_opportunity oracle save_fails threshold db o force).2 =
        true) ∧
    (∀ (oracle : String → String → Except String JObj) (save_fails : Bool)
       (db : DB) (r : Nat) (force : Bool),
      isOkResult
        (score_resume_for_all_opportunities oracle save_fails db r force).2 =
        true) ∧
    (∀ (oracle : String → String → Except String JObj) (save_fails : Bool)
       (db : DB) (force : Bool),
      isOkResult
        (score_all_resumes_all_opportunities oracle save_fails db force).2 =
        true) :=
  by
  refine ⟨fun oracle sf db r o force =>
    score_resume_no_storage oracle sf db r o force, ?_, ?_, ?_⟩
  · intro oracle sf th db o force
    unfold score_all_for_opportunity
    exact score_all_loop_isOk oracle sf th o force
      (db.resumes.map (fun p => p.1)) db
  · intro oracle sf db r force
    unfold score_resume_for_all_opportunities
    exact score_for_all_opps_loop_isOk oracle sf r force
      (db.opportunities.map (fun p => p.1)) db
  · intro oracle sf db force
    unfold score_all_resumes_all_opportunities
    exact score_all_pairs_outer_isOk oracle sf
      (db.resumes.map (fun p => p.1)) force
      (db.opportunities.map (fun p => p.1)) db

/-! ## Frame lemmas for C2 -/

/-- Pointwise replacement of the entry at a different key is invisible to
a lookup. -/
theorem find_map_subst_ne (l : List ((Nat × Nat) × ScoreRec))
    (k k2 : Nat × Nat) (v : ScoreRec) (h : k2 ≠ k) :
    List.find? (fun p => p.1 == k2)
        (l.map (fun p => if p.1 == k then (k, v) else p)) =
      List.find? (fun p => p.1 == k2) l := by
  induction l with
  | nil => rfl
  | cons p rest ih =>
    simp only [List.map_cons]
    by_cases hp : (p.1 == k) = true
    · rw [if_pos hp]
      have hpk : p.1 = k := by simpa using hp
      have h1 : ¬(((k, v) : (Nat × Nat) × ScoreRec).1 == k2) = true := by
        simp only [beq_iff_eq]
        exact fun hc => h hc.symm
      have h2 : ¬(p.1 == k2) = true := by
        rw [hpk]
        simp only [beq_iff_eq]
        exact fun hc => h hc.symm
      rw [@List.find?_cons_of_neg _ (fun q => q.1 == k2) (k, v) _ h1,
          @List.find?_cons_of_neg _ (fun q => q.1 == k2) p _ h2]
      exact ih
    · rw [if_neg hp]
      by_cases hq : (p.1 == k2) = true
      · rw [@List.find?_cons_of_pos _ (fun q => q.1 == k2) p _ hq,
            @List.find?_cons_of_pos _ (fun q => q.1 == k2) p _ hq]
      · rw [@List.find?_cons_of_neg _ (fun q => q.1 == k2) p _ hq,
            @List.find?_cons_of_neg _ (fun q => q.1 == k2) p _ hq]
        exact ih

/-- Upserting one pair key leaves lookups of every other pair unchanged. -/
theorem find_putScoreEntry_ne (l : List ((Nat × Nat) × ScoreRec))
    (k k2 : Nat × Nat) (v : ScoreRec) (h : k2 ≠ k) :
    (DB.putScoreEntry l k v).find? (fun p => p.1 == k2) =
      l.find? (fun p => p.1 == k2) := by
  unfold DB.putScoreEntry
  split
  · exact find_map_subst_ne l k k2 v h
  · rw [List.find?_append]
    have h1 : List.find? (fun p => p.1 == k2)
        ([(k, v)] : List ((Nat × Nat) × ScoreRec)) = none := by
      have : ¬(((k, v) : (Nat × Nat) × ScoreRec).1 == k2) = true := by
        simp only [beq_iff_eq]
        exact fun hc => h hc.symm
      simp [List.find?, this]
    rw [h1]
    cases List.find? (fun p => p.1 == k2) l <;> rfl

/-- A successful `save_score` changes only the saved pair's entry: the
entity collections and every other pair's score are untouched. -/
theorem save_score_preserves (save_fails : Bool) (db : DB) (r o : Nat)
    (sd : ScoreRec) (db2 : DB) (h : save_score save_fails db r o sd = .ok db2) :
    db2.resumes = db.resumes ∧ db2.opportunities = db.opportunities ∧
    ∀ c o2, (c, o2) ≠ (r, o) → db2.get_score c o2 = db.get_score c o2 := by
  unfold save_score at h
  split at h
  · exact absurd h (by simp)
  · rw [Except.ok.injEq] at h
    subst h
    refine ⟨rfl, rfl, ?_⟩
    intro c o2 hne
    unfold DB.get_score
    rw [find_putScoreEntry_ne db.scores (r, o) (c, o2) _ hne]

/-- A normal return of `score_resume_for_opportunity` changes only the
processed pair: entity collections and other stored scores are
untouched. -/
theorem score_resume_ok_preserves
    (oracle : String → String → Except String JObj) (save_fails : Bool)
    (db : DB) (r o : Nat) (force : Bool) (sd : Option ScoreRec) (db2 : DB)
    (h : (score_resume_for_opportunity oracle save_fails db r o force).2 =
      .ok (sd, db2)) :
    db2.resumes = db.resumes ∧ db2.opportunities = db.opportunities ∧
    ∀ c o2, (c, o2) ≠ (r, o) → db2.get_score c o2 = db.get_score c o2 := by
  unfold score_resume_for_opportunity at h
  split at h
  · simp only [Except.ok.injEq, Prod.mk.injEq] at h
    rw [← h.2]
    exact ⟨rfl, rfl, fun _ _ _ => rfl⟩
  · split at h
    · try dsimp only at h
      split at h
      · exact absurd h (by simp)
      · try dsimp only at h
        split at h
        · exact absurd h (by simp)
        · simp only [Except.ok.injEq, Prod.mk.injEq] at h
          rw [← h.2]
          rename_i db' hsave
          exact save_score_preserves save_fails db r o _ db' hsave
    · exact absurd h (by simp)

/-- The oracle-invocation log of one `score_resume_for_opportunity` call
is either empty or exactly the processed pair. -/
theorem score_resume_log_eq
    (oracle : String → String → Except String JObj) (save_fails : Bool)
    (db : DB) (r o : Nat) (force : Bool) :
    (score_resume_for_opportunity oracle save_fails db r o force).1 = [] ∨
    (score_resume_for_opportunity oracle save_fails db r o force).1 = [(r, o)] := by
  unfold score_resume_for_opportunity
  split
  · left; rfl
  · split
    · try dsimp only
      split
      · right; rfl
      · try dsimp only
        split <;> (right; rfl)
    · left; rfl

/-- With `force = True` and both entities present, the oracle is invoked
for the pair no matter how the call or the save turns out. -/
theorem score_resume_log_force
    (oracle : String → String → Except String JObj) (save_fails : Bool)
    (db : DB) (r o : Nat)
    (hr : (db.get_resume r).isSome = true)
    (ho : (db.get_opportunity o).isSome = true) :
    (score_resume_for_opportunity oracle save_fails db r o true).1 = [(r, o)] := by
  unfold score_resume_for_opportunity
  rw [if_neg (by simp)]
  obtain ⟨resume, hres⟩ := Option.isSome_iff_exists.mp hr
  obtain ⟨opp, hopp⟩ := Option.isSome_iff_exists.mp ho
  rw [hres, hopp]
  try dsimp only
  split
  · rfl
  · try dsimp only
    split <;> rfl

/-- A key occurring in an association list's key projection is found. -/
theorem assocFind_isSome_of_mem_keys {α : Type} (l : List (Nat × α)) (k : Nat)
    (h : k ∈ l.map (fun p => p.1)) : (DB.assocFind l k).isSome = true := by
  induction l with
  | nil => simp at h
  | cons p rest ih =>
    unfold DB.assocFind
    by_cases hp : (p.1 == k) = true
    · rw [@List.find?_cons_of_pos _ (fun q => q.1 == k) p _ hp]
      rfl
    · rw [@List.find?_cons_of_neg _ (fun q => q.1 == k) p _ hp]
      have hk : k ∈ rest.map (fun p => p.1) := by
        rw [List.map_cons, List.mem_cons] at h
        rcases h with h1 | h1
        · exact absurd (beq_iff_eq.mpr h1.symm) hp
        · exact h1
      have hres := ih hk
      unfold DB.assocFind at hres
      exact hres

/-- The force=false loop: a pre-existing below-threshold Score for pair
(c, o) is never sent to the oracle, survives unchanged in the store, and
is included in the result list when c is among the iterated resume ids;
the loop itself always returns normally. -/
theorem score_all_loop_skip_spec
    (oracle : String → String → Except String JObj) (save_fails : Bool)
    (threshold : Int) (o c : Nat) (ex : ScoreRec)
    (hlow : ex.overall < threshold) :
    ∀ (keys : List Nat) (db : DB),
      db.get_score c o = some ex →
      (c, o) ∉ (score_all_loop oracle save_fails threshold o false keys db).1 ∧
      ∃ l db2,
        (score_all_loop oracle save_fails threshold o false keys db).2 =
          .ok (l, db2) ∧
        db2.get_score c o = some ex ∧
        (c ∈ keys → ex ∈ l) := by
  intro keys
  induction keys with
  | nil =>
    intro db hsc
    exact ⟨by simp [score_all_loop], [], db, rfl, hsc, by simp⟩
  | cons r rest ih =>
    intro db hsc
    simp only [score_all_loop]
    by_cases hrc : r = c
    · subst hrc
      have hts : threshold_skip false threshold db r o = some ex := by
        simp [threshold_skip, hsc, hlow]
      rw [hts]
      obtain ⟨hnot, l, db2, hok, hpres, _⟩ := ih db hsc
      refine ⟨hnot, ex :: l, db2, ?_, hpres, fun _ => by simp⟩
      dsimp only
      rw [hok]
      rfl
    · have hcrest : c ∈ r :: rest → c ∈ rest := by
        intro hcm
        rcases List.mem_cons.mp hcm with h1 | h1
        · exact absurd h1.symm hrc
        · exact h1
      cases hts : threshold_skip false threshold db r o with
      | some ex2 =>
        obtain ⟨hnot, l, db2, hok, hpres, hmem⟩ := ih db hsc
        refine ⟨hnot, ex2 :: l, db2, ?_, hpres,
          fun hc => List.mem_cons_of_mem _ (hmem (hcrest hc))⟩
        dsimp only
        rw [hok]
        rfl
      | none =>
        dsimp only
        cases hs : (score_resume_for_opportunity oracle save_fails db r o false).2 with
        | ok v =>
          cases v with
          | mk sd db2 =>
            dsimp only
            have hne : ((c, o) : Nat × Nat) ≠ (r, o) := by
              intro heq
              exact hrc (congrArg Prod.fst heq).symm
            obtain ⟨hres, hopp, hframe⟩ :=
              score_resume_ok_preserves oracle save_fails db r o false sd db2 hs
            have hsc2 : db2.get_score c o = some ex := by
              rw [hframe c o hne]
              exact hsc
            obtain ⟨hnot, l, db2', hok, hpres, hmem⟩ := ih db2 hsc2
            constructor
            · intro habs
              rcases List.mem_append.mp habs with h1 | h1
              · rcases score_resume_log_eq oracle save_fails db r o false with hl | hl
                · rw [hl] at h1; simp at h1
                · rw [hl] at h1
                  exact hne (by simpa using h1)
              · exact hnot h1
            · refine ⟨sd.toList ++ l, db2', ?_, hpres,
                fun hc => List.mem_append.mpr (Or.inr (hmem (hcrest hc)))⟩
              rw [hok]
              rfl
        | error e =>
          cases e with
          | scoring m =>
            dsimp only
            obtain ⟨hnot, l, db2', hok, hpres, hmem⟩ := ih db hsc
            constructor
            · intro habs
              rcases List.mem_append.mp habs with h1 | h1
              · rcases score_resume_log_eq oracle save_fails db r o false with hl | hl
                · rw [hl] at h1; simp at h1
                · rw [hl] at h1
                  have : ((c, o) : Nat × Nat) = (r, o) := by simpa using h1
                  exact hrc (congrArg Prod.fst this).symm
              · exact hnot h1
            · exact ⟨l, db2', hok, hpres,
                fun hc => hmem (hcrest hc)⟩
          | storage m =>
            have := score_resume_no_storage oracle save_fails db r o false
            rw [hs] at this
            exact absurd this (by simp [isStorageError])

/-- The force=true loop reaches every iterated resume id whose entities
exist and invokes the oracle for it. -/
theorem score_all_loop_force_mem
    (oracle : String → String → Except String JObj) (save_fails : Bool)
    (threshold : Int) (o c : Nat) :
    ∀ (keys : List Nat) (db : DB),
      (db.get_resume c).isSome = true →
      (db.get_opportunity o).isSome = true →
      c ∈ keys →
      (c, o) ∈ (score_all_loop oracle save_fails threshold o true keys db).1 := by
  intro keys
  induction keys with
  | nil =>
    intro db _ _ hc
    simp at hc
  | cons r rest ih =>
    intro db hr ho hc
    simp only [score_all_loop]
    have hts : threshold_skip true threshold db r o = none := rfl
    rw [hts]
    dsimp only
    by_cases hrc : r = c
    · subst hrc
      have hlog : (score_resume_for_opportunity oracle save_fails db r o true).1 =
          [(r, o)] := score_resume_log_force oracle save_fails db r o hr ho
      cases hs : (score_resume_for_opportunity oracle save_fails db r o true).2 with
      | ok v =>
        cases v with
        | mk sd db2 => rw [hlog]; simp
      | error e =>
        cases e with
        | scoring m => rw [hlog]; simp
        | storage m => rw [hlog]; simp
    · have hcrest : c ∈ rest := by
        rcases List.mem_cons.mp hc with h1 | h1
        · exact absurd h1.symm hrc
        · exact h1
      cases hs : (score_resume_for_opportunity oracle save_fails db r o true).2 with
      | ok v =>
        cases v with
        | mk sd db2 =>
          obtain ⟨hres, hopp, _⟩ :=
            score_resume_ok_preserves oracle save_fails db r o true sd db2 hs
          have hr2 : (db2.get_resume c).isSome = true := by
            unfold DB.get_resume
            rw [hres]
            exact hr
          have ho2 : (db2.get_opportunity o).isSome = true := by
            unfold DB.get_opportunity
            rw [hopp]
            exact ho
          exact List.mem_append.mpr (Or.inr (ih db2 hr2 ho2 hcrest))
      | error e =>
        cases e with
        | scoring m => exact List.mem_append.mpr (Or.inr (ih db hr ho hcrest))
        | storage m =>
          have := score_resume_no_storage oracle save_fails db r o true
          rw [hs] at this
          exact absurd this (by simp [isStorageError])

/-- C2: Threshold-skip policy.  For an opportunity `o` and a candidate `c`
whose existing Score has `overall` strictly below the threshold,
`score_all_for_opportunity` with `force=False` never invokes the oracle
for `(c, o)`, returns normally, includes the pre-existing Score unchanged
in its result list, and leaves that stored Score untouched; with
`force=True` the oracle IS invoked for `(c, o)` regardless of the existing
score. -/
theorem claim_C2_threshold_skip_policy
    (oracle : String → String → Except String JObj) (save_fails : Bool)
    (threshold : Int) (db : DB) (c o : Nat) (ex : ScoreRec)
    (hscore : db.get_score c o = some ex)
    (hlow : ex.overall < threshold)
    (hkey : c ∈ db.resumes.map (fun p => p.1))
    (hopp : (db.get_opportunity o).isSome = true) :
    ((c, o) ∉ (score_all_for_opportunity oracle save_fails threshold db o false).1 ∧
      ∃ l db2,
        (score_all_for_opportunity oracle save_fails threshold db o false).2 =
          .ok (l, db2) ∧
        ex ∈ l ∧ db2.get_score c o = some ex) ∧
    (c, o) ∈ (score_all_for_opportunity oracle save_fails threshold db o true).1 := by
  have hres : (db.get_resume c).isSome = true := by
    unfold DB.get_resume
    exact assocFind_isSome_of_mem_keys db.resumes c hkey
  constructor
  · obtain ⟨hnot, l, db2, hok, hpres, hmem⟩ :=
      score_all_loop_skip_spec oracle save_fails threshold o c ex hlow
        (db.resumes.map (fun p => p.1)) db hscore
    refine ⟨?_, l, db2, ?_, hmem hkey, hpres⟩
    · unfold score_all_for_opportunity
      exact hnot
    · unfold score_all_for_opportunity
      exact hok
  · unfold score_all_for_opportunity
    exact score_all_loop_force_mem oracle save_fails threshold o c
      (db.resumes.map (fun p => p.1)) db hres hopp hkey

/-- The concrete store for the C2 witness: `db1` plus an existing Score of
60 (below threshold 70) for pair (1, 1). -/
def dbC2 : DB := { db1 with scores := [((1, 1), staleRec)] }

/-- Witness for C2 at the concrete store: with threshold 70 and an
existing 60-overall Score, `force=False` skips the oracle and reuses the
Score, `force=True` invokes the oracle for the pair. -/
theorem claim_C2_witness :
    ((1, 1) ∉ (score_all_for_opportunity oracleNever false 70 dbC2 1 false).1 ∧
      ∃ l db2,
        (score_all_for_opportunity oracleNever false 70 dbC2 1 false).2 =
          .ok (l, db2) ∧
        staleRec ∈ l ∧ db2.get_score 1 1 = some staleRec) ∧
    (1, 1) ∈ (score_all_for_opportunity oracleNever false 70 dbC2 1 true).1 :=
  claim_C2_threshold_skip_policy oracleNever false 70 dbC2 1 1 staleRec rfl
    (by decide) (by decide) rfl

/-! ## The Text Normalizer (`text_processor.py`)

`TextProcessor.find_phone` and `TextProcessor.find_email` are regex-based;
the embedding implements each of the source's patterns as an explicit
scanner over the character list, reproducing `re.search` semantics
(leftmost match, greedy with backtracking where the pattern needs it). -/

/-- Python `\s`. -/
def isPySpace (c : Char) : Bool :=
  c == ' ' || c == '\t' || c == '\n' || c == '\r' || c == '\x0b' || c == '\x0c'

/-- The separator class `[-.\s]` of the phone patterns. -/
def isSepCh (c : Char) : Bool := c == '-' || c == '.' || isPySpace c

/-- Python `\w` (ASCII): letters, digits, underscore. -/
def isWordCh (c : Char) : Bool := c.isAlphanum || c == '_'

/-- Take exactly `n` digits from the front. -/
def takeDigitsL : Nat → List Char → Option (List Char × List Char)
  | 0, l => some ([], l)
  | _ + 1, [] => none
  | n + 1, c :: rest =>
    if c.isDigit then
      match takeDigitsL n rest with
      | some (ds, r) => some (c :: ds, r)
      | none => none
    else none

/-- Consume one optional character of a class (the following token class is
disjoint in all uses, so greedy consumption is exact). -/
def consumeOpt (p : Char → Bool) : List Char → List Char
  | [] => []
  | c :: rest => if p c then rest else c :: rest

/-- First hit of `f` over `l`, in order — regex alternative order. -/
def firstSome {α β : Type} (l : List α) (f : α → Option β) : Option β :=
  match l with
  | [] => none
  | a :: rest =>
    match f a with
    | some b => some b
    | none => firstSome rest f

/-- After the literal `1` of pattern 1's optional prefix, the optional
separator: consumed-first, then not consumed (backtracking order). -/
def p1_after_one (l : List Char) : List (List Char) :=
  match l with
  | [] => [[]]
  | c :: rest => if isSepCh c then [rest, c :: rest] else [c :: rest]

/-- The alternative remainders, in backtracking order, after pattern 1's
optional prefix `(?:\+?1[-.\s]?)?`: group present (with `+`, then
without) before group absent. -/
def p1_prefixes (l : List Char) : List (List Char) :=
  match l with
  | '+' :: '1' :: rest => p1_after_one rest ++ [l]
  | '1' :: rest => p1_after_one rest ++ [l]
  | _ => [l]

/-- The mandatory tail of pattern 1:
`\(?(\d{3})\)?[-.\s]?(\d{3})[-.\s]?(\d{4})`. -/
def p1_core (l : List Char) : Option (String × String × String) :=
  let l1 := consumeOpt (fun c => c == '(') l
  match takeDigitsL 3 l1 with
  | none => none
  | some (a, l2) =>
    let l3 := consumeOpt (fun c => c == ')') l2
    let l4 := consumeOpt isSepCh l3
    match takeDigitsL 3 l4 with
    | none => none
    | some (b, l5) =>
      let l6 := consumeOpt isSepCh l5
      match takeDigitsL 4 l6 with
      | none => none
      | some (c3, _) => some (String.mk a, String.mk b, String.mk c3)

/-- Try pattern 1 anchored at this position. -/
def p1_at (l : List Char) : Option (String × String × String) :=
  firstSome (p1_prefixes l) p1_core

/-- `re.search` for pattern 1: leftmost position wins. -/
def search_p1 : List Char → Option (String × String × String)
  | [] => none
  | l@(_ :: rest) =>
    match p1_at l with
    | some g => some g
    | none => search_p1 rest

/-- Pattern 2 anchored at a position whose start boundary already holds:
`(\d{3})(\d{3})(\d{4})\b`. -/
def p2_at (l : List Char) : Option (String × String × String) :=
  match takeDigitsL 3 l with
  | none => none
  | some (a, l1) =>
    match takeDigitsL 3 l1 with
    | none => none
    | some (b, l2) =>
      match takeDigitsL 4 l2 with
      | none => none
      | some (c3, l3) =>
        match l3 with
        | [] => some (String.mk a, String.mk b, String.mk c3)
        | d :: _ =>
          if isWordCh d then none
          else some (String.mk a, String.mk b, String.mk c3)

/-- `re.search` for pattern 2 `\b(\d{3})(\d{3})(\d{4})\b`, threading the
previous character for the leading word boundary. -/
def search_p2 (prev : Option Char) : List Char → Option (String × String × String)
  | [] => none
  | l@(c :: rest) =>
    let bstart : Bool :=
      match prev with
      | none => true
      | some p => !(isWordCh p)
    match (if bstart then p2_at l else none) with
    | some g => some g
    | none => search_p2 (some c) rest

/-- Case-insensitive keyword strip for pattern 3's
`(?:phone|tel|mobile|cell)` alternation, tried in the source's order. -/
def strip_kw_at (l : List Char) : Option (List Char) :=
  firstSome ["phone", "tel", "mobile", "cell"] (fun kw =>
    if (l.take kw.length).map Char.toLower = kw.data then
      some (l.drop kw.length)
    else none)

/-- Pattern 3 anchored at this position:
`(?:phone|tel|mobile|cell)[\s:]*(\d{3})[-.\s]?(\d{3})[-.\s]?(\d{4})`
(case-insensitive; `[\s:]*` is greedy and disjoint from digits). -/
def p3_at (l : List Char) : Option (String × String × String) :=
  match strip_kw_at l with
  | none => none
  | some l1 =>
    let l2 := l1.dropWhile (fun c => isPySpace c || c == ':')
    match takeDigitsL 3 l2 with
    | none => none
    | some (a, l3) =>
      let l4 := consumeOpt isSepCh l3
      match takeDigitsL 3 l4 with
      | none => none
      | some (b, l5) =>
        let l6 := consumeOpt isSepCh l5
        match takeDigitsL 4 l6 with
        | none => none
        | some (c3, _) => some (String.mk a, String.mk b, String.mk c3)

/-- `re.search` for pattern 3. -/
def search_p3 : List Char → Option (String × String × String)
  | [] => none
  | l@(_ :: rest) =>
    match p3_at l with
    | some g => some g
    | none => search_p3 rest

/-- `f"({area_code}) {prefix}-{line}"`. -/
def format_phone (a b c : String) : String :=
  "(" ++ a ++ ") " ++ b ++ "-" ++ c

/-- `TextProcessor.find_phone`: try the three patterns in order; on a
match, format the three groups; otherwise fall back to collecting every
digit in the text and, when there are at least 10, formatting the first
ten as a phone number. -/
def find_phone (s : String) : Option String :=
  match search_p1 s.data with
  | some (a, b, c) => some (format_phone a b c)
  | none =>
    match search_p2 none s.data with
    | some (a, b, c) => some (format_phone a b c)
    | none =>
      match search_p3 s.data with
      | some (a, b, c) => some (format_phone a b c)
      | none =>
        let digits_only := s.data.filter Char.isDigit
        if 10 ≤ digits_only.length then
          some (format_phone (String.mk (digits_only.take 3))
            (String.mk ((digits_only.drop 3).take 3))
            (String.mk ((digits_only.drop 6).take 4)))
        else none

/-- The local-part class `[A-Za-z0-9._%+-]` of the email pattern. -/
def emailLocalChar (c : Char) : Bool :=
  c.isAlphanum || c == '.' || c == '_' || c == '%' || c == '+' || c == '-'

/-- The domain class `[A-Za-z0-9.-]`. -/
def emailDomChar (c : Char) : Bool := c.isAlphanum || c == '.' || c == '-'

/-- Try one backtracking split of the greedy domain run at dot index `k`
(`([A-Za-z0-9.-]+)` must end right before that dot, the TLD
`[A-Za-z]{2,}` follows it, then the trailing `\b`). -/
def email_split_at (run dom after : List Char) (k : Nat) : Option String :=
  match dom.get? k with
  | some '.' =>
    if 1 ≤ k then
      let letters := (dom.drop (k + 1)).takeWhile Char.isAlpha
      if 2 ≤ letters.length then
        let nxt : Option Char :=
          match (dom.drop (k + 1 + letters.length)).head? with
          | some c => some c
          | none => after.head?
        match nxt with
        | none => some (String.mk (run ++ '@' :: dom.take k ++ '.' :: letters))
        | some c =>
          if isWordCh c then none
          else some (String.mk (run ++ '@' :: dom.take k ++ '.' :: letters))
      else none
    else none
  | _ => none

/-- Try the email pattern anchored at this position: leading `\b`, greedy
local part, `@`, greedy domain run backtracked from its rightmost dot. -/
def email_at (prev : Option Char) (l : List Char) : Option String :=
  let run := l.takeWhile emailLocalChar
  match run.head? with
  | none => none
  | some c0 =>
    let bstart : Bool :=
      if isWordCh c0 then
        match prev with
        | none => true
        | some p => !(isWordCh p)
      else
        match prev with
        | none => false
        | some p => isWordCh p
    if bstart then
      match l.drop run.length with
      | '@' :: rest2 =>
        let dom := rest2.takeWhile emailDomChar
        let after := rest2.drop dom.length
        firstSome (List.range dom.length).reverse (email_split_at run dom after)
      | _ => none
    else none

/-- `re.search` scan for `EMAIL_PATTERN`, threading the previous character
for the leading word boundary. -/
def find_email_aux (prev : Option Char) : List Char → Option String
  | [] => none
  | l@(c :: rest) =>
    match email_at prev l with
    | some e => some e
    | none => find_email_aux (some c) rest

/-- `TextProcessor.find_email`: first match of
`\b[A-Za-z0-9._%+-]+@[A-Za-z0-9.-]+\.[A-Z|a-z]{2,}\b`, or `None`. -/
def find_email (s : String) : Option String := find_email_aux none s.data

/-- C10: Any input whose total digit count (anywhere in the string) is at
least 10 makes `find_phone` return a value: either one of the three
phone patterns matched, or the digit-concatenation fallback fires and
formats the first ten digits as `(AAA) PPP-LLLL` — so scattered dates,
zip codes or id numbers are reported as a phone number. -/
theorem claim_C10_digit_fallback (s : String)
    (h : 10 ≤ (s.data.filter Char.isDigit).length) :
    (find_phone s).isSome = true ∧
    (search_p1 s.data = none → search_p2 none s.data = none →
      search_p3 s.data = none →
      find_phone s =
        some (format_phone
          (String.mk ((s.data.filter Char.isDigit).take 3))
          (String.mk (((s.data.filter Char.isDigit).drop 3).take 3))
          (String.mk (((s.data.filter Char.isDigit).drop 6).take 4)))) := by
  constructor
  · unfold find_phone
    cases h1 : search_p1 s.data with
    | some g => rfl
    | none =>
      cases h2 : search_p2 none s.data with
      | some g => rfl
      | none =>
        cases h3 : search_p3 s.data with
        | some g => rfl
        | none =>
          dsimp only
          rw [if_pos h]
          rfl
  · intro h1 h2 h3
    unfold find_phone
    rw [h1, h2, h3]
    dsimp only
    rw [if_pos h]

/-- Witness for C10: ten digits interleaved with letters match no phone
pattern, yet `find_phone` reports `(123) 456-7890`. -/
theorem claim_C10_witness :
    (find_phone "a1b2c3d4e5f6g7h8i9j0").isSome = true ∧
    (search_p1 "a1b2c3d4e5f6g7h8i9j0".data = none →
      search_p2 none "a1b2c3d4e5f6g7h8i9j0".data = none →
      search_p3 "a1b2c3d4e5f6g7h8i9j0".data = none →
      find_phone "a1b2c3d4e5f6g7h8i9j0" =
        some (format_phone
          (String.mk (("a1b2c3d4e5f6g7h8i9j0".data.filter Char.isDigit).take 3))
          (String.mk ((("a1b2c3d4e5f6g7h8i9j0".data.filter Char.isDigit).drop 3).take 3))
          (String.mk ((("a1b2c3d4e5f6g7h8i9j0".data.filter Char.isDigit).drop 6).take 4)))) :=
  claim_C10_digit_fallback "a1b2c3d4e5f6g7h8i9j0" (by decide)

/-! ## The Ingestion Monitor (`file_monitor.py`) -/

/-- The per-file loop of `FileMonitor.scan_for_new_resumes` over readable
supported files, given as `(filename, extracted text)` pairs.  The set of
already-registered filenames is computed once up front.  For each new
file: extract contact info, register (which stores `email = None`,
`phone = None`), then fetch the fresh record and set the contact fields on
that local copy — the source never saves this copy back (its comment reads
"Save back (we need to add this method to StorageManager)"), so the
update is dead code, reproduced here as a discarded binding. -/
def scan_resumes_loop (existing : List String) :
    List (String × String) → DB → List Nat × DB
  | [], db => ([], db)
  | (name, text) :: rest, db =>
    if name ∈ existing then scan_resumes_loop existing rest db
    else
      let email := find_email text
      let phone := find_phone text
      let r := db.register_resume name name text
      let updated_local_copy :=
        (r.2.get_resume r.1).map
          (fun rd => { rd with email := email, phone := phone })
      let t := scan_resumes_loop existing rest r.2
      (r.1 :: t.1, (fun _ => t.2) updated_local_copy)

/-- `FileMonitor.scan_for_new_resumes`. -/
def scan_for_new_resumes (db : DB) (files : List (String × String)) :
    List Nat × DB :=
  scan_resumes_loop db.resumeFilenames files db

/-- The resume text of the C6 run: contact fields clearly present. -/
def c6text : String :=
  "Jane Doe\nContact: alice@example.com\nPhone: 555-123-4567\n"

/-- The C6 scan: one new resume file over a fresh store. -/
def c6scan : List Nat × DB :=
  scan_for_new_resumes (DB.init_databases none) [("alice.txt", c6text)]

/-- C6: the Text Normalizer DOES extract the contact fields from the new
file's text, and the scan DOES register the file — but the record readable
from the store afterwards has `email = None` and `phone = None`: the
extracted contact fields are never persisted (the save-back the source
comments about is missing), contradicting the claim that the stored
record carries the extracted values. -/
theorem claim_C6_contact_fields_lost :
    find_email c6text = some "alice@example.com" ∧
    find_phone c6text = some "(555) 123-4567" ∧
    c6scan.1 = [1] ∧
    (c6scan.2.get_resume 1).map (fun r => r.email) = some none ∧
    (c6scan.2.get_resume 1).map (fun r => r.phone) = some none :=
  ⟨rfl, rfl, rfl, rfl, rfl⟩

/-! ## The Report Generator (`results_generator.py`) -/

/-- One candidate entry of a report
(`ResultsGenerator.generate_opportunity_report`). -/
structure CandidateRow where
  resume_id : Nat
  filename : String
  email : Option String
  phone : Option String
  overall_score : Int
  skills_match : Int
  experience_match : Int
  education_match : Int
  grade : JVal
  recommendation : JVal
  key_strength : JVal
  concerns : JVal
deriving DecidableEq, Repr

/-- The JSON report written for one opportunity. -/
structure Report where
  opp_id : Nat
  position : String
  filename : String
  registered_at : Nat
  total_candidates : Nat
  average_score : ℚ
  highest_score : Int
  lowest_score : Int
  top_10 : List CandidateRow
  all_candidates : List CandidateRow
  generated_at : Nat
deriving DecidableEq, Repr

/-- Stable descending insertion by `overall_score` (Python `sorted` with
`reverse=True` is stable; equal keys keep their original order). -/
def insertDescByOverall (x : CandidateRow) : List CandidateRow → List CandidateRow
  | [] => [x]
  | y :: rest =>
    if y.overall_score < x.overall_score then x :: y :: rest
    else y :: insertDescByOverall x rest

/-- Stable sort, descending by `overall_score`. -/
def sortDescByOverall (l : List CandidateRow) : List CandidateRow :=
  l.foldl (fun acc x => insertDescByOverall x acc) []

/-- `StorageManager.get_opportunity_scores`: all stored scores for one
opportunity, keyed by resume id, in storage iteration order. -/
def get_opportunity_scores (db : DB) (opp_id : Nat) : List (Nat × ScoreRec) :=
  db.scores.filterMap
    (fun p => if p.1.2 == opp_id then some (p.1.1, p.2) else none)

/-- `ResultsGenerator.generate_opportunity_report`: `none` models the
`{'error': ...}` dict for an unknown opportunity. -/
def generate_opportunity_report (db : DB) (opp_id : Nat) : Option Report :=
  match db.get_opportunity opp_id with
  | none => none
  | some opp =>
    let scores := get_opportunity_scores db opp_id
    let candidates := scores.filterMap (fun rs =>
      match db.get_resume rs.1 with
      | none => none
      | some resume =>
        some { resume_id := rs.1
               filename := resume.filename
               email := resume.email
               phone := resume.phone
               overall_score := rs.2.overall
               skills_match := rs.2.skills_match
               experience_match := rs.2.experience_match
               education_match := rs.2.education_match
               grade := rs.2.grade
               recommendation := rs.2.recommendation
               key_strength := rs.2.key_strength
               concerns := rs.2.concerns.getD (JVal.str "None") })
    let sorted := sortDescByOverall candidates
    some { opp_id := opp_id
           position := opp.position
           filename := opp.filename
           registered_at := opp.registered_at
           total_candidates := candidates.length
           average_score :=
             if candidates.isEmpty then 0
             else mkRat (candidates.foldl (fun a c => a + c.overall_score) 0)
               candidates.length
           highest_score := ((sorted.head?).map (fun c => c.overall_score)).getD 0
           lowest_score := ((sorted.getLast?).map (fun c => c.overall_score)).getD 0
           top_10 := sorted.take 10
           all_candidates := sorted
           generated_at := db.clock }

/-- The Windows-invalid filename characters `[<>:"/\\|?*]`. -/
def invalidFsChar (c : Char) : Bool :=
  c == '<' || c == '>' || c == ':' || c == '"' || c == '/' || c == '\\' ||
  c == '|' || c == '?' || c == '*'

/-- A character collapsed by `re.sub(r'[\s_]+', '_', ...)`. -/
def isSpaceOrUnderscore (c : Char) : Bool := isPySpace c || c == '_'

/-- Each maximal `[\s_]+` run becomes one underscore. -/
def collapse_runs (inRun : Bool) : List Char → List Char
  | [] => []
  | c :: rest =>
    if isSpaceOrUnderscore c then
      if inRun then collapse_runs true rest
      else '_' :: collapse_runs true rest
    else c :: collapse_runs false rest

/-- Drop matching characters from the right end. -/
def dropTrailing (p : Char → Bool) (l : List Char) : List Char :=
  (l.reverse.dropWhile p).reverse

/-- `ResultsGenerator._sanitize_filename` with the default
`max_length = 50`: newlines/tabs to spaces, invalid characters to
underscores, whitespace/underscore runs collapsed, underscores stripped
from both ends, truncated, and `"unnamed"` when nothing remains. -/
def sanitize_filename (text : String) : String :=
  let l0 := text.data.map
    (fun c => if c == '\n' || c == '\r' || c == '\t' then ' ' else c)
  let l1 := l0.map (fun c => if invalidFsChar c then '_' else c)
  let l2 := collapse_runs false l1
  let l3 := l2.dropWhile (fun c => c == '_')
  let l4 := dropTrailing (fun c => c == '_') l3
  let l5 := l4.take 50
  if l5.isEmpty then "unnamed" else String.mk l5

/-- `f"opportunity_{opp_id}_{position_clean}.json"`. -/
def report_filename (opp_id : Nat) (position : String) : String :=
  "opportunity_" ++ toString opp_id ++ "_" ++ sanitize_filename position ++ ".json"

/-- The export directory: filename-keyed files, insertion-ordered. -/
abbrev ReportDir := List (String × Report)

/-- Writing a file overwrites a same-named file in place or creates a new
one; no other file is touched. -/
def write_file (dir : ReportDir) (name : String) (content : Report) : ReportDir :=
  if dir.any (fun p => p.1 == name) then
    dir.map (fun p => if p.1 == name then (name, content) else p)
  else dir ++ [(name, content)]

/-- The per-opportunity loop of
`ResultsGenerator.export_all_opportunity_reports`: generate each report
and write it under the sanitized name; an error report is printed and
skipped; nothing is ever deleted from the directory. -/
def export_loop (db : DB) : List (Nat × OppRec) → ReportDir → ReportDir
  | [], dir => dir
  | (o, opp_data) :: rest, dir =>
    match generate_opportunity_report db o with
    | none => export_loop db rest dir
    | some report =>
      export_loop db rest
        (write_file dir (report_filename o opp_data.position) report)

/-- `ResultsGenerator.export_all_opportunity_reports` over a pre-existing
output directory state. -/
def export_all_opportunity_reports (db : DB) (dir : ReportDir) : ReportDir :=
  export_loop db db.opportunities dir

/-- A file written by the export either has the generated name/content of
the currently processed opportunity or was already in the directory. -/
theorem write_file_mem (dir : ReportDir) (n : String) (c : Report)
    (f : String × Report) (h : f ∈ write_file dir n c) :
    f = (n, c) ∨ f ∈ dir := by
  unfold write_file at h
  split at h
  · rcases List.mem_map.mp h with ⟨p, hp, heq⟩
    by_cases hpn : (p.1 == n) = true
    · rw [if_pos hpn] at heq
      exact Or.inl heq.symm
    · rw [if_neg hpn] at heq
      exact Or.inr (heq ▸ hp)
  · rcases List.mem_append.mp h with h1 | h1
    · exact Or.inr h1
    · exact Or.inl (by simpa using h1)

theorem export_loop_mem (db : DB) :
    ∀ (opps : List (Nat × OppRec)) (dir : ReportDir) (f : String × Report),
      f ∈ export_loop db opps dir →
      (∃ p ∈ opps, f.1 = report_filename p.1 p.2.position) ∨ f ∈ dir := by
  intro opps
  induction opps with
  | nil => intro dir f hf; exact Or.inr hf
  | cons p rest ih =>
    rcases p with ⟨o, od⟩
    intro dir f hf
    simp only [export_loop] at hf
    cases hg : generate_opportunity_report db o with
    | none =>
      rw [hg] at hf
      rcases ih dir f hf with ⟨q, hq, hname⟩ | h
      · exact Or.inl ⟨q, List.mem_cons_of_mem _ hq, hname⟩
      · exact Or.inr h
    | some report =>
      rw [hg] at hf
      rcases ih (write_file dir (report_filename o od.position) report) f hf with
        ⟨q, hq, hname⟩ | h
      · exact Or.inl ⟨q, List.mem_cons_of_mem _ hq, hname⟩
      · rcases write_file_mem dir (report_filename o od.position) report f h with
          h1 | h1
        · exact Or.inl ⟨(o, od), List.mem_cons_self _ _, by rw [h1]⟩
        · exact Or.inr h1

/-- A report file from a prior run, under a name no current opportunity
generates. -/
def staleReport : Report :=
  { opp_id := 7, position := "Old Role", filename := "old.txt",
    registered_at := 0, total_candidates := 0, average_score := 0,
    highest_score := 0, lowest_score := 0, top_10 := [],
    all_candidates := [], generated_at := 0 }

/-- The pre-existing output directory holding only the stale file. -/
def dirStale : ReportDir := [("opportunity_7_Old_Role.json", staleReport)]

/-- C9 counterexample: after `export_all_opportunity_reports` over a store
whose only opportunity is id 1 ("Tutor"), the output directory still
contains the stale file `opportunity_7_Old_Role.json` from a prior run —
so NOT every file present corresponds to a currently stored
opportunity. -/
theorem claim_C9_counterexample :
    ¬ (∀ f ∈ export_all_opportunity_reports db1 dirStale,
        ∃ p ∈ db1.opportunities, f.1 = report_filename p.1 p.2.position) := by
  intro h
  have hmem : (("opportunity_7_Old_Role.json", staleReport) : String × Report) ∈
      export_all_opportunity_reports db1 dirStale := by decide
  rcases h _ hmem with ⟨p, hp, hname⟩
  have hall : ∀ p ∈ db1.opportunities,
      ¬((("opportunity_7_Old_Role.json", staleReport) : String × Report).1 =
        report_filename p.1 p.2.position) := by decide
  exact hall p hp hname

/-- C9 amended: the export writes (and thereby overwrites) exactly the
files named for currently stored opportunities; every other file found in
the output directory afterwards is a pre-existing file carried over
untouched — nothing tracks or prunes stale entries, so report files of
renamed or removed opportunities remain. -/
theorem claim_C9_no_pruning (db : DB) (dir : ReportDir) (f : String × Report)
    (hf : f ∈ export_all_opportunity_reports db dir) :
    (∃ p ∈ db.opportunities, f.1 = report_filename p.1 p.2.position) ∨
    f ∈ dir := by
  unfold export_all_opportunity_reports at hf
  exact export_loop_mem db db.opportunities dir f hf

/-- Witness for the C9 amended theorem: the stale file survives the
export and is accounted for by the `f ∈ dir` disjunct. -/
theorem claim_C9_witness :
    (∃ p ∈ db1.opportunities,
      (("opportunity_7_Old_Role.json", staleReport) : String × Report).1 =
        report_filename p.1 p.2.position) ∨
    (("opportunity_7_Old_Role.json", staleReport) : String × Report) ∈ dirStale :=
  claim_C9_no_pruning db1 dirStale ("opportunity_7_Old_Role.json", staleReport)
    (by decide)
